import Mathlib

/-!
Shallow embedding of the CA-Automation backend core
(ingestion / classification / storage / reminder pipeline).

Each definition mirrors one Python function or data shape from
`src/backend/app`.  Dates are modelled as explicit
(year, month, day) triples over `Int`, compared lexicographically
exactly as Python `datetime.date` compares.  Database tables are
lists of rows; SQLAlchemy queries become list operations.
-/

namespace CAAuto

/-- A calendar date as Python's `datetime.date` (year, month, day). -/
structure PDate where
  year : Int
  month : Int
  day : Int
deriving DecidableEq

/-- Python `date` comparison `a <= b` (lexicographic on (y, m, d)). -/
def PDate.leB (a b : PDate) : Bool :=
  decide (a.year < b.year) ||
    (a.year == b.year &&
      (decide (a.month < b.month) ||
        (a.month == b.month && decide (a.day ≤ b.day))))

/-- Python `date` comparison `a < b` (lexicographic on (y, m, d)). -/
def PDate.ltB (a b : PDate) : Bool :=
  decide (a.year < b.year) ||
    (a.year == b.year &&
      (decide (a.month < b.month) ||
        (a.month == b.month && decide (a.day < b.day))))

/-- Row of the `reminders` table (`app/models/reminder.py`).
`last_sent` keeps only the calendar date of the stored datetime,
which is all the service ever reads from it (`last_sent.date()`). -/
structure Reminder where
  company_id : Int
  reminder_month : PDate
  expected_by_date : PDate
  max_days_to_send : Int
  days_sent : Int
  is_active : Bool
  manual_stop : Bool
  gst_received : Bool
  last_sent : Option PDate
deriving DecidableEq

/-- `ReminderService._calculate_expected_date`: 7th of the month after
`reminder_month`. -/
def calculate_expected_date (m : PDate) : PDate :=
  if m.month == 12 then ⟨m.year + 1, 1, 7⟩ else ⟨m.year, m.month + 1, 7⟩

/-- Reminder row built by `ReminderService.create_monthly_reminders`
for one active company (defaults from the model: `max_days_to_send=5`,
`days_sent=0`, `is_active=True`, `manual_stop=False`,
`gst_received=False`, `last_sent` null). -/
def batchReminder (companyId : Int) (targetMonth : PDate) : Reminder :=
  { company_id := companyId
    reminder_month := targetMonth
    expected_by_date := calculate_expected_date targetMonth
    max_days_to_send := 5
    days_sent := 0
    is_active := true
    manual_stop := false
    gst_received := false
    last_sent := none }

/-- Reminder row built by the `POST /` route `create_reminder`
(`app/routers/reminders.py`): note `expected_by_date` is
`date(reminder_month.year, reminder_month.month, 7)` — the 7th of the
*same* month; the unset columns take the model defaults. -/
def manualReminder (companyId : Int) (reminderMonth : PDate)
    (maxDays : Int) : Reminder :=
  { company_id := companyId
    reminder_month := reminderMonth
    expected_by_date := ⟨reminderMonth.year, reminderMonth.month, 7⟩
    max_days_to_send := maxDays
    days_sent := 0
    is_active := true
    manual_stop := false
    gst_received := false
    last_sent := none }

/-- Environment of one `_process_reminder` call: today's date, the
result of `_check_gst_received`, and whether
`email_sender.send_gst_reminder` returns success. -/
structure TickEnv where
  today : PDate
  gstEmailExists : Bool
  dispatchSuccess : Bool
deriving DecidableEq

/-- Filter of `ReminderService._get_pending_reminders`. -/
def isPending (r : Reminder) (today : PDate) : Bool :=
  r.is_active && !r.manual_stop && !r.gst_received &&
    decide (r.days_sent < r.max_days_to_send) &&
    PDate.leB r.expected_by_date today

/-- `ReminderService._should_send_today`: send when never sent, or the
date of the last send is strictly before today. -/
def shouldSendToday (r : Reminder) (today : PDate) : Bool :=
  match r.last_sent with
  | none => true
  | some d => PDate.ltB d today

/-- Body of `ReminderService._process_reminder`.  Returns the updated
row and whether a dispatch (`send_gst_reminder`) was attempted. -/
def processReminder (env : TickEnv) (r : Reminder) : Reminder × Bool :=
  if env.gstEmailExists then
    ({ r with gst_received := true, is_active := false }, false)
  else if !(shouldSendToday r env.today) then
    (r, false)
  else if env.dispatchSuccess then
    let r1 := { r with days_sent := r.days_sent + 1,
                       last_sent := some env.today }
    (if decide (r1.max_days_to_send ≤ r1.days_sent) then
       { r1 with is_active := false }
     else r1, true)
  else
    (r, true)

/-- One daily-tick step on a single reminder: `_process_reminder` is
invoked only on rows passing the `_get_pending_reminders` filter. -/
def tickReminder (env : TickEnv) (r : Reminder) : Reminder × Bool :=
  if isPending r env.today then processReminder env r else (r, false)

/-- Payload of `PUT /{reminder_id}` (`ReminderUpdate` schema): only
these three columns are updatable, each optional. -/
structure RUpdate where
  max_days_to_send : Option Int
  is_active : Option Bool
  manual_stop : Option Bool
deriving DecidableEq

/-- `update_reminder`: `setattr` for every field set in the payload. -/
def applyUpdate (u : RUpdate) (r : Reminder) : Reminder :=
  { r with
    max_days_to_send := u.max_days_to_send.getD r.max_days_to_send
    is_active := u.is_active.getD r.is_active
    manual_stop := u.manual_stop.getD r.manual_stop }

/-- `POST /{reminder_id}/stop`: sets `manual_stop` only. -/
def stopReminder (r : Reminder) : Reminder :=
  { r with manual_stop := true }

/-- `POST /{reminder_id}/restart`: clears `manual_stop`, sets
`is_active`, touches nothing else. -/
def restartReminder (r : Reminder) : Reminder :=
  { r with manual_stop := false, is_active := true }

/-- One operation on an existing reminder row. -/
inductive ROp where
  | tick (env : TickEnv)
  | stop
  | restart
  | update (u : RUpdate)
deriving DecidableEq

/-- Apply one operation to a reminder row. -/
def applyOp (r : Reminder) (op : ROp) : Reminder :=
  match op with
  | .tick env => (tickReminder env r).1
  | .stop => stopReminder r
  | .restart => restartReminder r
  | .update u => applyUpdate u r

/-- Apply a sequence of operations. -/
def applyOps (r : Reminder) (ops : List ROp) : Reminder :=
  ops.foldl applyOp r

/-- The three reminder invariants from the data-model section. -/
def Inv (r : Reminder) : Prop :=
  r.days_sent ≤ r.max_days_to_send ∧
    (r.gst_received = true → r.is_active = false) ∧
    (r.max_days_to_send ≤ r.days_sent → r.is_active = false)

instance (r : Reminder) : Decidable (Inv r) := by
  unfold Inv; infer_instance

/-- Operations that are neither `restart` nor a field update. -/
def SafeOp : ROp → Prop
  | .restart => False
  | .update _ => False
  | _ => True

/-! ## Reminder table and monthly batch creation
(`ReminderService.create_monthly_reminders`, router `create_reminder`). -/

/-- Row of the `companies` table (fields the reminder batch uses). -/
structure Company where
  id : Int
  is_active : Bool
deriving DecidableEq

/-- `SELECT reminders WHERE company_id = cid AND reminder_month = m`
followed by `.first()` being non-null. -/
def reminderExists (db : List Reminder) (cid : Int) (m : PDate) : Bool :=
  db.any (fun r => r.company_id == cid && r.reminder_month == m)

/-- Loop body of `create_monthly_reminders`: for each company returned
by `SELECT companies WHERE is_active`, add a fresh reminder unless one
with the same (company_id, reminder_month) already exists.  The check
runs against the session state, which includes rows added earlier in
the same loop (autoflush). -/
def createMonthlyGo (targetMonth : PDate) :
    List Company → List Reminder → List Reminder
  | [], db => db
  | c :: cs, db =>
    if c.is_active then
      if reminderExists db c.id targetMonth then
        createMonthlyGo targetMonth cs db
      else
        createMonthlyGo targetMonth cs (db ++ [batchReminder c.id targetMonth])
    else
      createMonthlyGo targetMonth cs db

/-- `ReminderService.create_monthly_reminders(target_month)`. -/
def create_monthly_reminders (companies : List Company)
    (targetMonth : PDate) (db : List Reminder) : List Reminder :=
  createMonthlyGo targetMonth companies db

/-- Router `create_reminder`: unconditional `db.add` + commit, no
existence check. -/
def createReminderRoute (db : List Reminder) (cid : Int) (m : PDate)
    (maxDays : Int) : List Reminder :=
  db ++ [manualReminder cid m maxDays]

/-- Number of reminder rows with natural key (cid, m). -/
def countKey (db : List Reminder) (cid : Int) (m : PDate) : Nat :=
  (db.filter (fun r => r.company_id == cid && r.reminder_month == m)).length

/-! ## Gmail message payloads (`GmailService`)
A Gmail payload dict: `mimeType`, optional truthy `filename`, the
`body` dict's optional `data` (held here already base64-decoded via an
abstract `decode` parameter at use sites) and optional `attachmentId`,
and an optional nested `parts` list (key present or absent). -/

/-- One message payload / part. -/
inductive Payload where
  | mk (mimeType : String) (filename : Option String)
       (data : Option String) (attachmentId : Option String)
       (parts : Option (List Payload))

/-- `payload['mimeType']`. -/
def Payload.mimeType : Payload → String
  | .mk m _ _ _ _ => m

/-- `part.get('filename')` (may be absent or empty). -/
def Payload.filenameField : Payload → Option String
  | .mk _ f _ _ _ => f

/-- `'data' in part['body']` / `part['body']['data']`. -/
def Payload.dataField : Payload → Option String
  | .mk _ _ d _ _ => d

/-- `part['body'].get('attachmentId')`. -/
def Payload.attachmentIdField : Payload → Option String
  | .mk _ _ _ a _ => a

/-- `'parts' in payload` / `payload['parts']`. -/
def Payload.parts : Payload → Option (List Payload)
  | .mk _ _ _ _ ps => ps

mutual
/-- Size of a payload tree (termination measure for the spec's BFS). -/
def Payload.psize : Payload → Nat
  | .mk _ _ _ _ none => 1
  | .mk _ _ _ _ (some ps) => 1 + psizeList ps
/-- Total size of a list of payload trees. -/
def psizeList : List Payload → Nat
  | [] => 0
  | p :: ps => p.psize + psizeList ps
end

/-- Loop of `GmailService._extract_body` over the top-level `parts`
list: the first part whose `mimeType` is `text/plain` *and* whose body
carries `data` is decoded; a `text/plain` part without data does not
break the loop. -/
def firstTextPlainData (decode : String → String) : List Payload → String
  | [] => ""
  | p :: rest =>
    if p.mimeType == "text/plain" then
      match p.dataField with
      | some d => decode d
      | none => firstTextPlainData decode rest
    else firstTextPlainData decode rest

/-- `GmailService._extract_body`: when the payload has a `parts` key,
scan only that top-level list; otherwise use the payload's own body
when it is `text/plain`. -/
def extract_body (decode : String → String) (payload : Payload) : String :=
  match payload.parts with
  | some ps => firstTextPlainData decode ps
  | none =>
    if payload.mimeType == "text/plain" then
      match payload.dataField with
      | some d => decode d
      | none => ""
    else ""

/-- Modelled from the spec: "extract the plaintext body by a
breadth-first search over message parts selecting the first
`text/plain` leaf"; empty string when no such leaf exists.  Queue-based
breadth-first traversal; a leaf is a part without a `parts` list. -/
def bfsBodyGo (decode : String → String) : List Payload → String
  | [] => ""
  | p :: rest =>
    match p with
    | .mk mt _ d _ none =>
      if mt == "text/plain" then decode (d.getD "")
      else bfsBodyGo decode rest
    | .mk _ _ _ _ (some ps) => bfsBodyGo decode (rest ++ ps)
termination_by l => psizeList l
decreasing_by
  · simp [psizeList, Payload.psize]
  · have happ : ∀ a b : List Payload,
        psizeList (a ++ b) = psizeList a + psizeList b := by
      intro a b
      induction a with
      | nil => simp [psizeList]
      | cons q qs ih => simp [psizeList, ih]; omega
    simp [psizeList, Payload.psize, happ]; omega

/-- Spec's body extraction, started from the message payload. -/
def bfsBody (decode : String → String) (payload : Payload) : String :=
  bfsBodyGo decode [payload]

/-! ## Ingestion controller state (`GmailService._process_email`). -/

/-- Row of the `emails` table (`app/models/email.py`), the columns the
pipeline touches. -/
structure EmailRec where
  message_id : String
  sender : String
  subject : String
  body : String
  company_id : Option Int
  primary_category : Option String
  sub_category : Option String
  data_month : Option Int
  data_year : Option Int
  is_processed : Bool
  ai_classified : Bool
deriving DecidableEq

/-- Row of the `attachments` table (keyed here by the owning email's
message id, which is unique). -/
structure AttachmentRow where
  email_message_id : String
  file_name : String
deriving DecidableEq

/-- Persistent state touched by `_process_email`: the emails table,
the attachments table, and a counter of classification calls made
(to observe "zero side effects" on duplicates). -/
structure GState where
  emails : List EmailRec
  attachments : List AttachmentRow
  classifyCalls : Nat
deriving DecidableEq

/-- A fetched full message (header values and payload tree). -/
structure GMessage where
  subject : String
  sender : String
  payload : Payload

/-- Parsed classification JSON, fields read by
`PerplexityService._update_email_classification` (each via `.get`,
hence optional). -/
structure Classification where
  primary_category : Option String
  sub_category : Option String
  data_month : Option Int
  data_year : Option Int
deriving DecidableEq

/-- Python truthiness of `part.get('filename')`. -/
def truthyFilename : Option String → Bool
  | none => false
  | some s => !(s == "")

/-- Attachment rows recorded by `_process_attachments`: every
top-level part with a truthy filename is passed to `_save_attachment`,
which records a row unless the part lacks an `attachmentId`. -/
def savedAttachments (msgId : String) (payload : Payload) :
    List AttachmentRow :=
  match payload.parts with
  | some ps =>
    ps.filterMap (fun p =>
      if truthyFilename p.filenameField then
        match p.attachmentIdField with
        | some _ => some ⟨msgId, p.filenameField.getD ""⟩
        | none => none
      else none)
  | none => []

/-- `PerplexityService._update_email_classification`: writes the four
classification fields and sets `ai_classified`. -/
def updateEmailClassification (c : Classification) (e : EmailRec) :
    EmailRec :=
  { e with
    primary_category := c.primary_category
    sub_category := c.sub_category
    data_month := c.data_month
    data_year := c.data_year
    ai_classified := true }

/-- `GmailService._process_email`:
1. skip if the message id already exists (idempotent no-op);
2. otherwise build and store the email row (body via `_extract_body`),
3. record attachments (`_process_attachments`),
4. call classification (`classify_email`; `cres` is its parsed result,
   `none` on any failure),
5. mark the record processed.
`decode` abstracts base64url-decoding; `companyId` is the company
matched from the sender address. -/
def processEmail (st : GState) (msgId : String) (msg : GMessage)
    (companyId : Option Int) (cres : Option Classification)
    (decode : String → String) : GState :=
  if st.emails.any (fun e => e.message_id == msgId) then st
  else
    let body := extract_body decode msg.payload
    let rec0 : EmailRec :=
      { message_id := msgId
        sender := msg.sender
        subject := msg.subject
        body := body
        company_id := companyId
        primary_category := none
        sub_category := none
        data_month := none
        data_year := none
        is_processed := false
        ai_classified := false }
    let atts := savedAttachments msgId msg.payload
    let rec1 :=
      match cres with
      | some c => updateEmailClassification c rec0
      | none => rec0
    let rec2 := { rec1 with is_processed := true }
    { emails := st.emails ++ [rec2]
      attachments := st.attachments ++ atts
      classifyCalls := st.classifyCalls + 1 }

/-! ## Classification adapter (`PerplexityService`). -/

/-- Outcome of the HTTP call in `_call_perplexity_api`: a timeout, a
non-success status (`raise_for_status` raises), or a 2xx response with
the assistant's text content. -/
inductive ApiResponse where
  | timeout
  | httpError (status : Int)
  | ok (content : String)

/-- The JSON-scan of `_call_perplexity_api`:
`json_start = content.find('\x7b')`, `json_end = content.rfind('\x7d') + 1`;
the substring is taken only when both exist and `json_end > json_start`. -/
def extractJsonStr (content : String) : Option String :=
  let l := content.toList
  match l.findIdx? (· == '\x7b'), l.reverse.findIdx? (· == '\x7d') with
  | some s, some revE =>
    let e := l.length - 1 - revE
    if s < e + 1 then some (String.mk ((l.drop s).take (e + 1 - s)))
    else none
  | _, _ => none

/-- `PerplexityService._call_perplexity_api` over an abstract
`json.loads (jsonLoads)`: every timeout or HTTP error is caught and
yields `none`; on a 2xx response the first-`\x7b`-to-last-`\x7d`
substring is parsed, any parse failure yielding `none`. -/
def callPerplexityApi (jsonLoads : String → Option Classification) :
    ApiResponse → Option Classification
  | .timeout => none
  | .httpError _ => none
  | .ok content =>
    match extractJsonStr content with
    | some s => jsonLoads s
    | none => none

/-- `PerplexityService.classify_email`: on a parsed result, update the
record and return success; otherwise leave the record untouched and
return failure.  Total — no exception reaches the caller. -/
def classify_email (jsonLoads : String → Option Classification)
    (resp : ApiResponse) (e : EmailRec) : EmailRec × Bool :=
  match callPerplexityApi jsonLoads resp with
  | some c => (updateEmailClassification c e, true)
  | none => (e, false)

/-! ## Storage path resolver (`StorageService`). -/

/-- Python regex `\w` on a character (ASCII fragment: alphanumeric or
underscore). -/
def isPyWordChar (c : Char) : Bool := c.isAlphanum || c == '_'

/-- Python regex `\s` on a character (ASCII whitespace class). -/
def isPySpaceChar (c : Char) : Bool :=
  c == ' ' || c == '\t' || c == '\n' || c == '\r' || c == '\x0b' ||
    c == '\x0c'

/-- Character class `[\s-]`. -/
def isSpaceDashChar (c : Char) : Bool := isPySpaceChar c || c == '-'

/-- Character class `[\w\s-]` (the complement of what
`re.sub(r'[^\w\s-]', '', ...)` deletes). -/
def keepChar (c : Char) : Bool :=
  isPyWordChar c || isPySpaceChar c || c == '-'

/-- `re.sub(r'[\s-]+', '_', ...)`: replace each maximal run of
whitespace/hyphen by one underscore (`inRun` tracks being inside a
run). -/
def collapseRuns : Bool → List Char → List Char
  | _, [] => []
  | inRun, c :: rest =>
    if isSpaceDashChar c then
      if inRun then collapseRuns true rest
      else '_' :: collapseRuns true rest
    else c :: collapseRuns false rest

/-- Python `str.strip('_')`. -/
def stripUnderscores (l : List Char) : List Char :=
  (l.dropWhile (· == '_')).rdropWhile (· == '_')

/-- `StorageService.sanitize_company_name` on a character list:
lowercase, delete `[^\w\s-]`, collapse `[\s-]+` to `_`, strip `_`. -/
def sanitizeList (l : List Char) : List Char :=
  stripUnderscores (collapseRuns false (List.filter keepChar
    (l.map Char.toLower)))

/-- `StorageService.sanitize_company_name`. -/
def sanitize_company_name (s : String) : String :=
  String.mk (sanitizeList s.toList)

/-- First top-level `text/plain` part carrying body data (used to
characterize `extract_body`). -/
def isTextPlainWithData (p : Payload) : Bool :=
  p.mimeType == "text/plain" && p.dataField.isSome

/-- Concrete nested payload: a multipart container whose only
`text/plain` leaf sits one level down. -/
def nestedPayload : Payload :=
  Payload.mk "multipart/mixed" none none none
    (some [Payload.mk "multipart/alternative" none none none
      (some [Payload.mk "text/plain" none (some "hello") none none])])

/-- Amended reading of the body-extraction behaviour: the first
*top-level* part that is `text/plain` and carries data; when the
payload has no `parts` key, the payload itself plays that role. -/
def firstTopLevelSpec (decode : String → String) (payload : Payload) :
    String :=
  match payload.parts with
  | some ps =>
    match ps.find? isTextPlainWithData with
    | some p => decode (p.dataField.getD "")
    | none => ""
  | none =>
    if isTextPlainWithData payload then decode (payload.dataField.getD "")
    else ""

/-- Concrete message carrying one PDF attachment part. -/
def msgAttach : GMessage :=
  ⟨"subj", "sender", Payload.mk "multipart/mixed" none none none
    (some [Payload.mk "application/pdf" (some "f.pdf") none (some "a1")
      none])⟩

/-- Concrete plain-text message. -/
def msgPlain : GMessage :=
  ⟨"subj", "sender", Payload.mk "text/plain" none (some "hi") none none⟩

/-- Concrete already-ingested email row. -/
def emailFixture : EmailRec :=
  ⟨"m1", "sender", "subj", "hi", none, none, none, none, none, true,
    false⟩

/-- Store state already holding message "m1". -/
def stWithM1 : GState := ⟨[emailFixture], [], 0⟩

/-- Empty store state. -/
def stEmpty : GState := ⟨[], [], 0⟩

/-! # Theorems -/

/-- `PDate.ltB` is irreflexive. -/
theorem PDate.ltB_irrefl (d : PDate) : PDate.ltB d d = false := by
  simp [PDate.ltB]

/-- A daily-tick step preserves the three reminder invariants. -/
theorem inv_tickReminder (env : TickEnv) (r : Reminder) (h : Inv r) :
    Inv (tickReminder env r).1 := by
  obtain ⟨h1, h2, h3⟩ := h
  rw [tickReminder]
  by_cases hp : isPending r env.today = true
  case neg => rw [if_neg hp]; exact ⟨h1, h2, h3⟩
  have hplt : r.days_sent < r.max_days_to_send := by
    simp only [isPending, Bool.and_eq_true, decide_eq_true_eq] at hp
    exact hp.1.2
  have hpgst : r.gst_received = false := by
    simp only [isPending, Bool.and_eq_true, Bool.not_eq_true'] at hp
    exact hp.1.1.2
  rw [if_pos hp, processReminder]
  by_cases hg : env.gstEmailExists = true
  · rw [if_pos hg]
    exact ⟨h1, fun _ => rfl, fun _ => rfl⟩
  rw [if_neg hg]
  by_cases hs : (!shouldSendToday r env.today) = true
  · rw [if_pos hs]; exact ⟨h1, h2, h3⟩
  rw [if_neg hs]
  by_cases hd : env.dispatchSuccess = true
  case neg => rw [if_neg hd]; exact ⟨h1, h2, h3⟩
  rw [if_pos hd]
  dsimp only
  by_cases hm : r.max_days_to_send ≤ r.days_sent + 1
  · rw [if_pos (by simpa using hm)]
    exact ⟨by dsimp only; omega, fun _ => rfl, fun _ => rfl⟩
  · rw [if_neg (by simpa using hm)]
    refine ⟨by dsimp only; omega, fun hgst => ?_, fun hle => ?_⟩
    · exact absurd hgst (by simp [hpgst])
    · dsimp only at hle
      exact absurd hle hm

/-- Stopping a reminder preserves the three invariants. -/
theorem inv_stopReminder (r : Reminder) (h : Inv r) :
    Inv (stopReminder r) := h

/-- Invariant preservation over any sequence of safe operations. -/
theorem inv_applyOps (r : Reminder) (ops : List ROp) (h : Inv r)
    (hs : ∀ op ∈ ops, SafeOp op) : Inv (applyOps r ops) := by
  induction ops generalizing r with
  | nil => exact h
  | cons op rest ih =>
    have hop : SafeOp op := hs op (List.mem_cons_self _ _)
    have hrest : ∀ o ∈ rest, SafeOp o := fun o ho =>
      hs o (List.mem_cons_of_mem _ ho)
    match op with
    | .tick env => exact ih _ (inv_tickReminder env r h) hrest
    | .stop => exact ih _ (inv_stopReminder r h) hrest
    | .restart => exact absurd hop (by simp [SafeOp])
    | .update u => exact absurd hop (by simp [SafeOp])

/-- Claim C1: the three reminder invariants (`days_sent ≤
max_days_to_send`; `gst_received → ¬is_active`; `days_sent ≥
max_days_to_send → ¬is_active`) are NOT preserved by every operation
sequence: `restart` unconditionally reactivates a resolved reminder.
Concretely, a freshly created 2025-06 reminder, ticked on 2025-07-08
with a compliant GST email present (which sets `gst_received` and
deactivates it), then restarted, is active with `gst_received` set. -/
theorem reminder_invariants_cex :
    ¬ Inv (applyOps (batchReminder 1 ⟨2025, 6, 1⟩)
      [ROp.tick ⟨⟨2025, 7, 8⟩, true, true⟩, ROp.restart]) := by
  decide

/-- Claim C1 (amended): the three invariants hold for every reminder
created by the monthly batch, and for every manually created reminder
with positive `max_days_to_send`, after any sequence of daily-tick
processing (dispatch success or failure, compliance detection) and
stop operations; `restart` and field update are excluded, since they
can reactivate a resolved reminder or lower the escalation budget
below the send count. -/
theorem reminder_invariants_safe :
    (∀ (cid : Int) (m : PDate), Inv (batchReminder cid m)) ∧
    (∀ (cid : Int) (m : PDate) (k : Int), 1 ≤ k →
      Inv (manualReminder cid m k)) ∧
    (∀ (r : Reminder) (ops : List ROp), Inv r →
      (∀ op ∈ ops, SafeOp op) → Inv (applyOps r ops)) := by
  refine ⟨fun cid m => ?_, fun cid m k hk => ?_, inv_applyOps⟩
  · exact ⟨by norm_num [batchReminder], fun h => by simp [batchReminder] at h,
      fun h => by norm_num [batchReminder] at h⟩
  · exact ⟨by simp only [manualReminder]; omega,
      fun h => by simp [manualReminder] at h,
      fun h => by simp only [manualReminder] at h; omega⟩

/-- Claim C1 witness: the amended invariant theorem applied to a
concrete reminder and a concrete safe operation sequence. -/
theorem reminder_invariants_safe_witness :
    Inv (applyOps (batchReminder 1 ⟨2025, 6, 1⟩)
      [ROp.tick ⟨⟨2025, 7, 8⟩, false, true⟩, ROp.stop]) ∧
    Inv (manualReminder 2 ⟨2025, 6, 1⟩ 3) :=
  ⟨reminder_invariants_safe.2.2 _ _
      (reminder_invariants_safe.1 1 ⟨2025, 6, 1⟩)
      (by intro op hop; fin_cases hop <;> simp [SafeOp]),
    reminder_invariants_safe.2.1 2 ⟨2025, 6, 1⟩ 3 (by norm_num)⟩

/-- Claim C2: the monthly batch path (`_calculate_expected_date`) does
set `expected_by_date` to the 7th of the month after `reminder_month`
(including the December rollover), but the direct creation route sets
the 7th of the *same* month: for reminder month 2025-06 it stores
2025-06-07, not the documented 2025-07-07. -/
theorem create_reminder_expected_by_bug :
    (batchReminder 1 ⟨2025, 6, 1⟩).expected_by_date = ⟨2025, 7, 7⟩ ∧
    (batchReminder 1 ⟨2025, 12, 1⟩).expected_by_date = ⟨2026, 1, 7⟩ ∧
    (manualReminder 1 ⟨2025, 6, 1⟩ 5).expected_by_date = ⟨2025, 6, 7⟩ ∧
    (manualReminder 1 ⟨2025, 6, 1⟩ 5).expected_by_date ≠
      calculate_expected_date ⟨2025, 6, 1⟩ := by
  decide

/-- If a tick step attempted a dispatch, the pending filter and the
once-per-day check both passed. -/
theorem tickReminder_snd_eq_true {env : TickEnv} {r : Reminder}
    (h : (tickReminder env r).2 = true) :
    isPending r env.today = true ∧ env.gstEmailExists = false ∧
      shouldSendToday r env.today = true := by
  by_cases hp : isPending r env.today = true
  · rw [tickReminder, if_pos hp, processReminder] at h
    by_cases hg : env.gstEmailExists = true
    · rw [if_pos hg] at h
      exact absurd h (by simp)
    · rw [if_neg hg] at h
      by_cases hs : (!shouldSendToday r env.today) = true
      · rw [if_pos hs] at h
        exact absurd h (by simp)
      · exact ⟨hp, by simpa using hg, by simpa using hs⟩
  · rw [tickReminder, if_neg hp] at h
    exact absurd h (by simp)

/-- After a successful dispatch, `last_sent` records today's date. -/
theorem tickReminder_last_sent {env : TickEnv} {r : Reminder}
    (hd : env.dispatchSuccess = true) (h : (tickReminder env r).2 = true) :
    ((tickReminder env r).1).last_sent = some env.today := by
  obtain ⟨hp, hg, hs⟩ := tickReminder_snd_eq_true h
  rw [tickReminder, if_pos hp, processReminder, if_neg (by simp [hg]),
    if_neg (by simp [hs]), if_pos hd]
  dsimp only
  split <;> rfl

/-- Claim C7: (a) a dispatch is attempted only for a reminder that is
active, not manually stopped, not compliance-received, strictly below
its escalation budget, whose `expected_by_date` is not after today,
and for which no send has happened today (`last_sent` null or strictly
before today); (b) after a successful dispatch, no second dispatch to
the same reminder can happen the same calendar day. -/
theorem tick_dispatch_guard :
    ∀ (env : TickEnv) (r : Reminder),
      ((tickReminder env r).2 = true →
        r.is_active = true ∧ r.manual_stop = false ∧
          r.gst_received = false ∧
          r.days_sent < r.max_days_to_send ∧
          PDate.leB r.expected_by_date env.today = true ∧
          (r.last_sent = none ∨
            ∃ d, r.last_sent = some d ∧ PDate.ltB d env.today = true)) ∧
      (env.dispatchSuccess = true → (tickReminder env r).2 = true →
        ∀ env2 : TickEnv, env2.today = env.today →
          (tickReminder env2 (tickReminder env r).1).2 = false) := by
  intro env r
  constructor
  · intro h
    obtain ⟨hp, hg, hs⟩ := tickReminder_snd_eq_true h
    simp only [isPending, Bool.and_eq_true, decide_eq_true_eq,
      Bool.not_eq_true'] at hp
    refine ⟨hp.1.1.1.1, hp.1.1.1.2, hp.1.1.2, hp.1.2, hp.2, ?_⟩
    unfold shouldSendToday at hs
    cases hls : r.last_sent with
    | none => exact Or.inl rfl
    | some d =>
      rw [hls] at hs
      exact Or.inr ⟨d, rfl, hs⟩
  · intro hd h env2 ht
    have hls := tickReminder_last_sent hd h
    rw [tickReminder]
    by_cases hp2 : isPending (tickReminder env r).1 env2.today = true
    · rw [if_pos hp2, processReminder]
      by_cases hg2 : env2.gstEmailExists = true
      · rw [if_pos hg2]
      · rw [if_neg hg2]
        have hnosend : shouldSendToday (tickReminder env r).1 env2.today
            = false := by
          unfold shouldSendToday
          rw [hls, ht]
          exact PDate.ltB_irrefl _
        rw [if_pos (by simp [hnosend])]
    · rw [if_neg hp2]

/-- Claim C7 witness: concrete dispatch on 2025-07-08 for a 2025-06
reminder, with all guard conditions evaluated, and no second dispatch
the same day. -/
theorem tick_dispatch_guard_witness :
    (tickReminder ⟨⟨2025, 7, 8⟩, false, true⟩
        (batchReminder 1 ⟨2025, 6, 1⟩)).2 = true ∧
    (batchReminder 1 ⟨2025, 6, 1⟩).is_active = true ∧
    (tickReminder ⟨⟨2025, 7, 8⟩, false, false⟩
      (tickReminder ⟨⟨2025, 7, 8⟩, false, true⟩
        (batchReminder 1 ⟨2025, 6, 1⟩)).1).2 = false := by
  refine ⟨by decide, ?_, ?_⟩
  · exact ((tick_dispatch_guard ⟨⟨2025, 7, 8⟩, false, true⟩
      (batchReminder 1 ⟨2025, 6, 1⟩)).1 (by decide)).1
  · exact (tick_dispatch_guard ⟨⟨2025, 7, 8⟩, false, true⟩
      (batchReminder 1 ⟨2025, 6, 1⟩)).2 rfl (by decide)
      ⟨⟨2025, 7, 8⟩, false, false⟩ rfl

/-- Claim C10: `restart` sets exactly `manual_stop := false` and
`is_active := true`; every other column — in particular `days_sent`
and `gst_received` — is unchanged, so escalation resumes where it
left off. -/
theorem restart_frame :
    ∀ r : Reminder,
      (restartReminder r).manual_stop = false ∧
      (restartReminder r).is_active = true ∧
      (restartReminder r).company_id = r.company_id ∧
      (restartReminder r).reminder_month = r.reminder_month ∧
      (restartReminder r).expected_by_date = r.expected_by_date ∧
      (restartReminder r).max_days_to_send = r.max_days_to_send ∧
      (restartReminder r).days_sent = r.days_sent ∧
      (restartReminder r).gst_received = r.gst_received ∧
      (restartReminder r).last_sent = r.last_sent :=
  fun _ => ⟨rfl, rfl, rfl, rfl, rfl, rfl, rfl, rfl, rfl⟩

/-- `reminderExists` over an appended row. -/
theorem reminderExists_append (db : List Reminder) (x : Reminder)
    (cid : Int) (m : PDate) :
    reminderExists (db ++ [x]) cid m =
      (reminderExists db cid m ||
        (x.company_id == cid && x.reminder_month == m)) := by
  simp [reminderExists]

/-- `countKey` over an appended row. -/
theorem countKey_append (db : List Reminder) (x : Reminder) (cid : Int)
    (m : PDate) :
    countKey (db ++ [x]) cid m = countKey db cid m +
      (if (x.company_id == cid && x.reminder_month == m) = true then 1
       else 0) := by
  simp only [countKey, List.filter_append, List.length_append]
  split <;> simp_all

/-- No row with key (cid, m) means zero count. -/
theorem countKey_eq_zero {db : List Reminder} {cid : Int} {m : PDate}
    (h : reminderExists db cid m = false) : countKey db cid m = 0 := by
  simp only [reminderExists, List.any_eq_false] at h
  simp only [countKey, List.length_eq_zero, List.filter_eq_nil_iff]
  exact h

/-- The batch loop preserves "at most one row" for every key. -/
theorem countKey_createMonthlyGo_le (m : PDate) (cs : List Company)
    (cid : Int) (mm : PDate) :
    ∀ db, countKey db cid mm ≤ 1 →
      countKey (createMonthlyGo m cs db) cid mm ≤ 1 := by
  induction cs with
  | nil => exact fun db h => h
  | cons c rest ih =>
    intro db h
    simp only [createMonthlyGo]
    by_cases ha : c.is_active = true
    · rw [if_pos ha]
      by_cases he : reminderExists db c.id m = true
      · rw [if_pos he]; exact ih db h
      · rw [if_neg he]
        apply ih
        rw [countKey_append]
        by_cases hkey : ((batchReminder c.id m).company_id == cid &&
            (batchReminder c.id m).reminder_month == mm) = true
        · rw [if_pos hkey]
          simp only [batchReminder, Bool.and_eq_true, beq_iff_eq] at hkey
          obtain ⟨rfl, rfl⟩ := hkey
          have h0 : countKey db c.id m = 0 :=
            countKey_eq_zero (by simpa using he)
          omega
        · rw [if_neg hkey]
          simpa using h
    · rw [if_neg ha]; exact ih db h

/-- An existing key survives the batch loop. -/
theorem reminderExists_createMonthlyGo_of (m : PDate)
    (cs : List Company) :
    ∀ (db : List Reminder) (cid : Int) (mm : PDate),
      reminderExists db cid mm = true →
      reminderExists (createMonthlyGo m cs db) cid mm = true := by
  induction cs with
  | nil => exact fun db cid mm h => h
  | cons c rest ih =>
    intro db cid mm h
    simp only [createMonthlyGo]
    by_cases ha : c.is_active = true
    · rw [if_pos ha]
      by_cases he : reminderExists db c.id m = true
      · rw [if_pos he]; exact ih db cid mm h
      · rw [if_neg he]
        exact ih _ cid mm (by rw [reminderExists_append, h]; rfl)
    · rw [if_neg ha]; exact ih db cid mm h

/-- After the batch loop, every active company of the list has a row
for the target month. -/
theorem reminderExists_after_createMonthlyGo (m : PDate)
    (cs : List Company) :
    ∀ (db : List Reminder) (c : Company), c ∈ cs → c.is_active = true →
      reminderExists (createMonthlyGo m cs db) c.id m = true := by
  induction cs with
  | nil => intro db c hc _; cases hc
  | cons c0 rest ih =>
    intro db c hc ha
    simp only [createMonthlyGo]
    rcases List.mem_cons.mp hc with rfl | hmem
    · rw [if_pos ha]
      by_cases he : reminderExists db c.id m = true
      · rw [if_pos he]
        exact reminderExists_createMonthlyGo_of m rest db c.id m he
      · rw [if_neg he]
        apply reminderExists_createMonthlyGo_of m rest
        rw [reminderExists_append]
        simp [batchReminder]
    · by_cases ha0 : c0.is_active = true
      · rw [if_pos ha0]
        by_cases he : reminderExists db c0.id m = true
        · rw [if_pos he]; exact ih db c hmem ha
        · rw [if_neg he]; exact ih _ c hmem ha
      · rw [if_neg ha0]; exact ih db c hmem ha

/-- The batch loop is a no-op when every active company of the list
already has a row for the target month. -/
theorem createMonthlyGo_noop (m : PDate) (cs : List Company) :
    ∀ db : List Reminder,
      (∀ c ∈ cs, c.is_active = true → reminderExists db c.id m = true) →
      createMonthlyGo m cs db = db := by
  induction cs with
  | nil => exact fun db _ => rfl
  | cons c0 rest ih =>
    intro db h
    simp only [createMonthlyGo]
    by_cases ha : c0.is_active = true
    · rw [if_pos ha, if_pos (h c0 (List.mem_cons_self _ _) ha)]
      exact ih db fun c hc hca => h c (List.mem_cons_of_mem _ hc) hca
    · rw [if_neg ha]
      exact ih db fun c hc hca => h c (List.mem_cons_of_mem _ hc) hca

/-- Claim C3: the claim fails for the direct creation route, which
performs no existence check (and the `Reminder` model declares no
uniqueness constraint on (company_id, reminder_month)): two direct
creations for the same key leave two rows — while two monthly batch
runs leave exactly one. -/
theorem duplicate_manual_creation_cex :
    countKey (createReminderRoute
        (createReminderRoute [] 1 ⟨2025, 6, 1⟩ 5) 1 ⟨2025, 6, 1⟩ 5)
      1 ⟨2025, 6, 1⟩ = 2 ∧
    countKey (create_monthly_reminders [⟨1, true⟩] ⟨2025, 6, 1⟩
        (create_monthly_reminders [⟨1, true⟩] ⟨2025, 6, 1⟩ []))
      1 ⟨2025, 6, 1⟩ = 1 := by
  decide

/-- Claim C3 (amended): `create_monthly_reminders` preserves "at most
one Reminder row per (company, month)" and a repeated invocation is an
idempotent no-op; the direct creation route, however, appends
unconditionally, so uniqueness holds only for the monthly batch
path. -/
theorem create_monthly_idempotent :
    (∀ (cs : List Company) (m : PDate) (db : List Reminder) (cid : Int)
        (mm : PDate),
      countKey db cid mm ≤ 1 →
      countKey (create_monthly_reminders cs m db) cid mm ≤ 1) ∧
    (∀ (cs : List Company) (m : PDate) (db : List Reminder),
      create_monthly_reminders cs m (create_monthly_reminders cs m db) =
        create_monthly_reminders cs m db) := by
  constructor
  · intro cs m db cid mm h
    exact countKey_createMonthlyGo_le m cs cid mm db h
  · intro cs m db
    unfold create_monthly_reminders
    exact createMonthlyGo_noop m cs _
      (fun c hc ha => reminderExists_after_createMonthlyGo m cs db c hc ha)

/-- Claim C3 witness: the preservation half applied to a concrete
one-company database. -/
theorem create_monthly_idempotent_witness :
    countKey (create_monthly_reminders [⟨1, true⟩] ⟨2025, 6, 1⟩ [])
      1 ⟨2025, 6, 1⟩ ≤ 1 :=
  create_monthly_idempotent.1 [⟨1, true⟩] ⟨2025, 6, 1⟩ [] 1 ⟨2025, 6, 1⟩
    (by decide)

/-- Processing a message whose id is already stored changes nothing. -/
theorem processEmail_present {st : GState} {msgId : String}
    (msg : GMessage) (companyId : Option Int)
    (cres : Option Classification) (decode : String → String)
    (h : st.emails.any (fun e => e.message_id == msgId) = true) :
    processEmail st msgId msg companyId cres decode = st := by
  unfold processEmail
  rw [if_pos h]

/-- Processing a new message appends exactly one email row (processed,
classified iff the classification call succeeded), the attachments of
the message, and one classification call. -/
theorem processEmail_not_present (st : GState) (msgId : String)
    (msg : GMessage) (companyId : Option Int)
    (cres : Option Classification) (decode : String → String)
    (h : st.emails.any (fun e => e.message_id == msgId) = false) :
    ∃ e : EmailRec,
      processEmail st msgId msg companyId cres decode =
        { emails := st.emails ++ [e]
          attachments := st.attachments ++
            savedAttachments msgId msg.payload
          classifyCalls := st.classifyCalls + 1 } ∧
      e.message_id = msgId ∧ e.is_processed = true ∧
      e.ai_classified = cres.isSome ∧
      e.body = extract_body decode msg.payload := by
  unfold processEmail
  rw [if_neg (by simp [h])]
  cases cres with
  | none => exact ⟨_, rfl, rfl, rfl, rfl, rfl⟩
  | some c => exact ⟨_, rfl, rfl, rfl, rfl, rfl⟩

/-- Claim C4: ingesting a message id that already exists is an
idempotent no-op with zero side effects (the whole state — emails,
attachments, classification-call counter — is unchanged); processing
the same id twice equals processing it once, and a new id yields
exactly one stored row for it. -/
theorem process_email_idempotent :
    ∀ (st : GState) (msgId : String) (msg : GMessage)
      (companyId : Option Int) (cres : Option Classification)
      (decode : String → String),
      (st.emails.any (fun e => e.message_id == msgId) = true →
        processEmail st msgId msg companyId cres decode = st) ∧
      (processEmail (processEmail st msgId msg companyId cres decode)
          msgId msg companyId cres decode =
        processEmail st msgId msg companyId cres decode) ∧
      (st.emails.any (fun e => e.message_id == msgId) = false →
        ((processEmail st msgId msg companyId cres decode).emails.filter
          (fun e => e.message_id == msgId)).length = 1) := by
  intro st msgId msg companyId cres decode
  refine ⟨processEmail_present msg companyId cres decode, ?_, ?_⟩
  · by_cases h : st.emails.any (fun e => e.message_id == msgId) = true
    · rw [processEmail_present msg companyId cres decode h]
      exact processEmail_present msg companyId cres decode h
    · obtain ⟨e, heq, hmsg, -, -, -⟩ := processEmail_not_present st msgId
        msg companyId cres decode (by simpa using h)
      rw [heq]
      exact processEmail_present msg companyId cres decode
        (by simp [List.any_append, hmsg])
  · intro h
    obtain ⟨e, heq, hmsg, -, -, -⟩ := processEmail_not_present st msgId
      msg companyId cres decode h
    rw [heq]
    simp only [List.any_eq_false] at h
    rw [List.filter_append, List.filter_eq_nil_iff.mpr h]
    simp [hmsg]

/-- Claim C4 witness: concrete no-op on an existing id and concrete
single-row insertion for a fresh id. -/
theorem process_email_idempotent_witness :
    processEmail stWithM1 "m1" msgPlain none none id = stWithM1 ∧
    ((processEmail stEmpty "m1" msgPlain none none id).emails.filter
      (fun e => e.message_id == "m1")).length = 1 :=
  ⟨(process_email_idempotent stWithM1 "m1" msgPlain none none id).1
      (by rfl),
    (process_email_idempotent stEmpty "m1" msgPlain none none id).2.2
      (by rfl)⟩

/-- Claim C5: at a concrete new message carrying one attachment part,
with the classification call failing (`cres = none`), the attachment
is nonetheless persisted and the stored row is unclassified — the
controller persists attachments before and independently of
classification, contradicting "persists attachments only when
classification succeeds". -/
theorem attachments_before_classification_cex :
    (processEmail stEmpty "m1" msgAttach none none id).attachments =
      [⟨"m1", "f.pdf"⟩] ∧
    (processEmail stEmpty "m1" msgAttach none none id).emails.map
      (fun e => e.ai_classified) = [false] ∧
    (processEmail stEmpty "m1" msgAttach none none id).emails.map
      (fun e => e.is_processed) = [true] := by
  refine ⟨rfl, rfl, rfl⟩

/-- Claim C5 (amended): for every newly ingested message the
controller records the attachment rows (every top-level part with a
truthy filename and an attachment id) regardless of the classification
outcome — the attachment set is identical under any two classification
results — and the stored email row always ends processing with
`is_processed = true`, with `ai_classified` set exactly when
classification succeeded. -/
theorem process_new_email_effects :
    ∀ (st : GState) (msgId : String) (msg : GMessage)
      (companyId : Option Int) (cres : Option Classification)
      (decode : String → String),
      st.emails.any (fun e => e.message_id == msgId) = false →
      ((processEmail st msgId msg companyId cres decode).attachments =
        st.attachments ++ savedAttachments msgId msg.payload) ∧
      (∀ cres2 : Option Classification,
        (processEmail st msgId msg companyId cres2 decode).attachments =
          (processEmail st msgId msg companyId cres decode).attachments) ∧
      (∃ e : EmailRec,
        (processEmail st msgId msg companyId cres decode).emails =
          st.emails ++ [e] ∧ e.is_processed = true ∧
          e.ai_classified = cres.isSome) := by
  intro st msgId msg companyId cres decode h
  obtain ⟨e, heq, -, hproc, hai, -⟩ := processEmail_not_present st msgId
    msg companyId cres decode h
  refine ⟨by rw [heq], ?_, e, by rw [heq], hproc, hai⟩
  intro cres2
  obtain ⟨e2, heq2, -, -, -, -⟩ := processEmail_not_present st msgId
    msg companyId cres2 decode h
  rw [heq2, heq]

/-- Claim C5 witness: the amended effects at the concrete
one-attachment message with a successful classification. -/
theorem process_new_email_effects_witness :
    (processEmail stEmpty "m1" msgAttach none
        (some ⟨some "GST", none, some 6, some 2025⟩) id).attachments =
      stEmpty.attachments ++ savedAttachments "m1" msgAttach.payload ∧
    (∃ e : EmailRec,
      (processEmail stEmpty "m1" msgAttach none
          (some ⟨some "GST", none, some 6, some 2025⟩) id).emails =
        stEmpty.emails ++ [e] ∧ e.is_processed = true ∧
        e.ai_classified = (some
          (⟨some "GST", none, some 6, some 2025⟩ : Classification)).isSome) :=
  ⟨(process_new_email_effects stEmpty "m1" msgAttach none
      (some ⟨some "GST", none, some 6, some 2025⟩) id (by rfl)).1,
    (process_new_email_effects stEmpty "m1" msgAttach none
      (some ⟨some "GST", none, some 6, some 2025⟩) id (by rfl)).2.2⟩

/-- Claim C8: at a concrete payload whose only `text/plain` leaf is
nested inside a multipart part, `_extract_body` returns the empty
string while the spec's breadth-first search finds "hello" — body
extraction does not recurse into nested parts. -/
theorem extract_body_not_bfs_cex :
    extract_body id nestedPayload = "" ∧
    bfsBody id nestedPayload = "hello" := by
  constructor
  · rfl
  · simp [bfsBody, bfsBodyGo, nestedPayload]

/-- Claim C8 (amended): body extraction returns the decoded data of
the first `text/plain` part with body data among the *top-level* parts
only (no recursion into nested multipart parts); when the payload has
no parts list, the payload's own body is used when it is `text/plain`;
otherwise the empty string. -/
theorem extract_body_first_top_level :
    ∀ (decode : String → String) (payload : Payload),
      extract_body decode payload = firstTopLevelSpec decode payload := by
  intro decode payload
  unfold extract_body firstTopLevelSpec
  cases hps : payload.parts with
  | none =>
    unfold isTextPlainWithData
    by_cases hm : (payload.mimeType == "text/plain") = true
    · cases hd : payload.dataField <;> simp [hm, hd]
    · simp [hm]
  | some ps =>
    clear hps
    induction ps with
    | nil => rfl
    | cons p rest ih =>
      unfold firstTextPlainData
      by_cases hm : (p.mimeType == "text/plain") = true
      · cases hd : p.dataField with
        | some d =>
          simp [List.find?_cons, isTextPlainWithData, hm, hd]
        | none =>
          simp only [List.find?_cons, isTextPlainWithData, hm, hd]
          simpa using ih
      · simp only [Bool.not_eq_true] at hm
        simp only [List.find?_cons, isTextPlainWithData, hm,
          Bool.false_and]
        simpa [hm] using ih

/-- Claim C6: the classification adapter is a total function — every
timeout, non-success HTTP status, response with no JSON-object
substring, or substring `json.loads` rejects, yields `none` (the
`Failure` value, never an exception); and whenever the call yields
`none`, `classify_email` returns the email record exactly unchanged
(classification fields and `ai_classified` untouched) with `False`. -/
theorem classification_failure_total :
    ∀ (jsonLoads : String → Option Classification) (e : EmailRec),
      callPerplexityApi jsonLoads ApiResponse.timeout = none ∧
      (∀ status : Int,
        callPerplexityApi jsonLoads (ApiResponse.httpError status) =
          none) ∧
      (∀ content : String, extractJsonStr content = none →
        callPerplexityApi jsonLoads (ApiResponse.ok content) = none) ∧
      (∀ content js : String, extractJsonStr content = some js →
        jsonLoads js = none →
        callPerplexityApi jsonLoads (ApiResponse.ok content) = none) ∧
      (∀ resp : ApiResponse, callPerplexityApi jsonLoads resp = none →
        classify_email jsonLoads resp e = (e, false)) := by
  intro jsonLoads e
  refine ⟨rfl, fun _ => rfl, fun content h => ?_,
    fun content js h1 h2 => ?_, fun resp h => ?_⟩
  · simp only [callPerplexityApi]
    rw [h]
  · simp only [callPerplexityApi]
    rw [h1]
    exact h2
  · unfold classify_email
    rw [h]

/-- Claim C6 witness: a brace-free response and a timeout, on a
concrete email record and the always-failing parser. -/
theorem classification_failure_total_witness :
    callPerplexityApi (fun _ => none) (ApiResponse.ok "no braces") =
      none ∧
    classify_email (fun _ => none) ApiResponse.timeout emailFixture =
      (emailFixture, false) :=
  ⟨(classification_failure_total (fun _ => none) emailFixture).2.2.1
      "no braces" (by rfl),
    (classification_failure_total (fun _ => none) emailFixture).2.2.2.2
      ApiResponse.timeout rfl⟩

/-- `Char.ofNat` on a valid scalar value round-trips through
`toNat`. -/
theorem char_toNat_ofNat {n : Nat} (h : n.isValidChar) :
    (Char.ofNat n).toNat = n := by
  rw [Char.ofNat, dif_pos h]
  rfl

/-- Lowercasing is idempotent. -/
theorem toLower_idem (c : Char) :
    Char.toLower (Char.toLower c) = Char.toLower c := by
  by_cases h : 65 ≤ c.toNat ∧ c.toNat ≤ 90
  · have h1 : Char.toLower c = Char.ofNat (c.toNat + 32) := by
      unfold Char.toLower
      rw [if_pos ⟨h.1, h.2⟩]
    have hv : (c.toNat + 32).isValidChar := Or.inl (by omega)
    have ht : (Char.ofNat (c.toNat + 32)).toNat = c.toNat + 32 :=
      char_toNat_ofNat hv
    rw [h1]
    unfold Char.toLower
    rw [if_neg (by rw [ht]; omega)]
  · have h1 : Char.toLower c = c := by
      unfold Char.toLower
      rw [if_neg (fun hh => h ⟨hh.1, hh.2⟩)]
    rw [h1, h1]

/-- Every character produced by the run-collapsing pass is either the
inserted underscore or an original non-whitespace/hyphen character. -/
theorem mem_collapseRuns {c : Char} :
    ∀ (b : Bool) (l : List Char), c ∈ collapseRuns b l →
      c = '_' ∨ (c ∈ l ∧ isSpaceDashChar c = false) := by
  intro b l
  induction l generalizing b with
  | nil => intro h; simp [collapseRuns] at h
  | cons a rest ih =>
    intro h
    simp only [collapseRuns] at h
    by_cases ha : isSpaceDashChar a = true
    · rw [if_pos ha] at h
      by_cases hb : b = true
      · rw [if_pos hb] at h
        rcases ih true h with h1 | ⟨h1, h2⟩
        · exact Or.inl h1
        · exact Or.inr ⟨List.mem_cons_of_mem _ h1, h2⟩
      · rw [if_neg hb] at h
        rcases List.mem_cons.mp h with rfl | h1
        · exact Or.inl rfl
        · rcases ih true h1 with h2 | ⟨h2, h3⟩
          · exact Or.inl h2
          · exact Or.inr ⟨List.mem_cons_of_mem _ h2, h3⟩
    · rw [if_neg ha] at h
      rcases List.mem_cons.mp h with rfl | h1
      · exact Or.inr ⟨List.mem_cons_self _ _, by simpa using ha⟩
      · rcases ih false h1 with h2 | ⟨h2, h3⟩
        · exact Or.inl h2
        · exact Or.inr ⟨List.mem_cons_of_mem _ h2, h3⟩

/-- Run collapsing fixes lists without whitespace/hyphen. -/
theorem collapseRuns_eq_self {l : List Char}
    (h : ∀ c ∈ l, isSpaceDashChar c = false) :
    ∀ b, collapseRuns b l = l := by
  induction l with
  | nil => intro b; rfl
  | cons a rest ih =>
    intro b
    simp only [collapseRuns]
    rw [if_neg (by simp [h a (List.mem_cons_self _ _)])]
    rw [ih (fun c hc => h c (List.mem_cons_of_mem _ hc)) false]

/-- Mapping `toLower` fixes lists of already-lowered characters. -/
theorem map_toLower_eq_self {l : List Char}
    (h : ∀ c ∈ l, Char.toLower c = c) : l.map Char.toLower = l := by
  induction l with
  | nil => rfl
  | cons a rest ih =>
    simp only [List.map_cons, h a (List.mem_cons_self _ _)]
    rw [ih (fun c hc => h c (List.mem_cons_of_mem _ hc))]

/-- A prefix of a `dropWhile`-fixed list is `dropWhile`-fixed. -/
theorem dropWhile_eq_self_of_prefix {p : Char → Bool} {d m : List Char}
    (hd : List.dropWhile p d = d) (hm : m <+: d) :
    List.dropWhile p m = m := by
  cases m with
  | nil => rfl
  | cons a t =>
    obtain ⟨s, hs⟩ := hm
    rw [List.cons_append] at hs
    subst hs
    rw [List.dropWhile_cons] at hd ⊢
    by_cases hpa : p a = true
    · rw [if_pos hpa] at hd
      exfalso
      have hle := ((t ++ s).dropWhile_sublist p).length_le
      rw [hd] at hle
      simp only [List.length_cons] at hle
      omega
    · rw [if_neg hpa]

/-- Stripping underscores only removes characters. -/
theorem stripUnderscores_sub {l : List Char} :
    ∀ c ∈ stripUnderscores l, c ∈ l := by
  intro c hc
  unfold stripUnderscores at hc
  exact (List.dropWhile_sublist _).subset
    ((List.rdropWhile_prefix _ _).sublist.subset hc)

/-- Stripping underscores is idempotent. -/
theorem stripUnderscores_idem (l : List Char) :
    stripUnderscores (stripUnderscores l) = stripUnderscores l := by
  unfold stripUnderscores
  have h1 : List.dropWhile (· == '_')
      (List.rdropWhile (· == '_') (List.dropWhile (· == '_') l)) =
      List.rdropWhile (· == '_') (List.dropWhile (· == '_') l) :=
    dropWhile_eq_self_of_prefix (List.dropWhile_idempotent _ _)
      (List.rdropWhile_prefix _ _)
  rw [h1, List.rdropWhile_idempotent]

/-- Every character of a sanitized name is lowered, kept by the
character filter, and not in the whitespace/hyphen class. -/
theorem sanitizeList_chars {l : List Char} :
    ∀ c ∈ sanitizeList l,
      Char.toLower c = c ∧ keepChar c = true ∧
        isSpaceDashChar c = false := by
  intro c hc
  have hc1 := stripUnderscores_sub _ hc
  rcases mem_collapseRuns _ _ hc1 with h1 | ⟨h2, h3⟩
  · subst h1
    exact ⟨by decide, by decide, by decide⟩
  · have hk : keepChar c = true := List.of_mem_filter h2
    have hm : c ∈ l.map Char.toLower := List.mem_of_mem_filter h2
    obtain ⟨c0, -, rfl⟩ := List.mem_map.mp hm
    exact ⟨toLower_idem c0, hk, h3⟩

/-- The sanitizer is idempotent on character lists. -/
theorem sanitizeList_idem (l : List Char) :
    sanitizeList (sanitizeList l) = sanitizeList l := by
  set y := sanitizeList l with hy
  have hch : ∀ c ∈ y, Char.toLower c = c ∧ keepChar c = true ∧
      isSpaceDashChar c = false := fun c hc => sanitizeList_chars c hc
  rw [sanitizeList, map_toLower_eq_self (fun c hc => (hch c hc).1),
    List.filter_eq_self.mpr (fun c hc => (hch c hc).2.1),
    collapseRuns_eq_self (fun c hc => (hch c hc).2.2) false, hy,
    sanitizeList, stripUnderscores_idem]

/-- Claim C9: `sanitize_company_name` is idempotent —
`sanitize(sanitize(x)) = sanitize(x)` for every string — and
deterministic: equal inputs yield equal outputs. -/
theorem sanitize_idempotent :
    ∀ s : String,
      sanitize_company_name (sanitize_company_name s) =
        sanitize_company_name s ∧
      (∀ t : String, s = t →
        sanitize_company_name s = sanitize_company_name t) := by
  intro s
  refine ⟨?_, fun t ht => by rw [ht]⟩
  unfold sanitize_company_name
  congr 1
  show sanitizeList (sanitizeList s.toList) = sanitizeList s.toList
  exact sanitizeList_idem _

/-- Claim C9 witness: idempotence and determinism evaluated on
"ACME & Co. Ltd.", whose sanitized form is "acme_co_ltd". -/
theorem sanitize_idempotent_witness :
    sanitize_company_name (sanitize_company_name "ACME & Co. Ltd.") =
      sanitize_company_name "ACME & Co. Ltd." ∧
    sanitize_company_name "ACME & Co. Ltd." =
      sanitize_company_name "ACME & Co. Ltd." ∧
    sanitize_company_name "ACME & Co. Ltd." = "acme_co_ltd" :=
  ⟨(sanitize_idempotent "ACME & Co. Ltd.").1,
    (sanitize_idempotent "ACME & Co. Ltd.").2 "ACME & Co. Ltd." rfl,
    by decide⟩

end CAAuto
